import Mathlib

/-!
Verification development for the multi-agent catering system.

Part 1 embeds the requirement segmenter, the tool function
dietary_strategy_analyzer of src/catering_server.py (lines 53-181).
Part 2 embeds the workflow steps of src/client.py (diet_analyze,
find_existing_recipes, review_search_result, match_chef, finalize).
All definitions follow the Python source; spec-side definitions used to
compare against the specification's wording are marked as such.
-/

/-- A guest record. The four dietary flags default to false and the
allergen list defaults to the empty list, mirroring the source's
guest.get(key, False) and guest.get(key, []) accesses. -/
structure Guest where
  is_vegan : Bool := false
  is_vegetarian : Bool := false
  is_gluten_free : Bool := false
  is_dairy_free : Bool := false
  allergens : List String := []
deriving DecidableEq

/-- Output record universal_requirement of the analyzer (also the pydantic
model UniversalRequirement of src/client.py). -/
structure UniversalRequirement where
  dietary_restrictions : List String
  allergens : List String
deriving DecidableEq

/-- Output record of alternatives_needed entries (pydantic model
AlternativeRequirement of src/client.py). -/
structure AlternativeRequirement where
  dietary_restrictions : List String
  allergens : List String
  quantity_needed : Nat
deriving DecidableEq

/-- Result shape of dietary_strategy_analyzer (pydantic model
DietaryAnalysisOutput of src/client.py). -/
structure DietaryAnalysisOutput where
  total_guests : Nat
  universal_requirement : UniversalRequirement
  alternatives_needed : List AlternativeRequirement
deriving DecidableEq

/-- The four dietary flags tallied by the analyzer. -/
inductive DietFlag where
  | vegan
  | vegetarian
  | gluten_free
  | dairy_free
deriving DecidableEq

/-- The string key the analyzer uses for each flag. -/
def flagName : DietFlag → String
  | .vegan => "is_vegan"
  | .vegetarian => "is_vegetarian"
  | .gluten_free => "is_gluten_free"
  | .dairy_free => "is_dairy_free"

/-- Whether a guest has the given flag set (source line 87-94 reads the
corresponding field with default false). -/
def flagSet (g : Guest) : DietFlag → Bool
  | .vegan => g.is_vegan
  | .vegetarian => g.is_vegetarian
  | .gluten_free => g.is_gluten_free
  | .dairy_free => g.is_dairy_free

/-- Number of guests with the given flag set (the restriction_counts tally
of source lines 85-94). -/
def countFlag (gl : List Guest) (f : DietFlag) : Nat :=
  gl.countP (fun g => flagSet g f)

/-- One update of the allergen tally dict: restriction_counts entry for the
allergen is incremented if present, otherwise appended with count 1
(Python dicts keep insertion order). -/
def bumpAllergen (m : List (String × Nat)) (a : String) : List (String × Nat) :=
  match m with
  | [] => [(a, 1)]
  | (k, v) :: rest => if k = a then (k, v + 1) :: rest else (k, v) :: bumpAllergen rest a

/-- The allergen occurrence tally across all guests in order (source lines
96-99); every occurrence in every guest's list is counted. -/
def tallyAllergens (gl : List Guest) : List (String × Nat) :=
  gl.foldl (fun m g => g.allergens.foldl bumpAllergen m) []

/-- Threshold from source line 103:
math.ceil(total_guests * 0.3) if total_guests > 3 else 1.
For a natural n the floating-point ceil(n * 0.3) agrees with the exact
rational ceiling of 3n/10, which over Nat is (3n + 9) / 10. -/
def thresholdOf (n : Nat) : Nat := if 3 < n then (3 * n + 9) / 10 else 1

/-- The universal dietary restriction names, appended in the fixed order of
source lines 110-117: a flag name is appended iff its tally reaches the
threshold. -/
def universalDietary (gl : List Guest) : List String :=
  (if thresholdOf gl.length ≤ countFlag gl DietFlag.vegan then ["is_vegan"] else []) ++
  (if thresholdOf gl.length ≤ countFlag gl DietFlag.vegetarian then ["is_vegetarian"] else []) ++
  (if thresholdOf gl.length ≤ countFlag gl DietFlag.gluten_free then ["is_gluten_free"] else []) ++
  (if thresholdOf gl.length ≤ countFlag gl DietFlag.dairy_free then ["is_dairy_free"] else [])

/-- Lookup of an allergen's tallied count (0 when absent), mirroring
dict access into restriction_counts. -/
def getCount : List (String × Nat) → String → Nat
  | [], _ => 0
  | (k, v) :: rest, a => if k = a then v else getCount rest a

/-- The universal allergens (source lines 120-122): allergens whose tally
reaches the threshold, in tally (first-occurrence) order. -/
def universalAllergens (gl : List Guest) : List String :=
  ((tallyAllergens gl).filter (fun p => decide (thresholdOf gl.length ≤ p.2))).map Prod.fst

/-- Insertion of a string into a sorted list, the building block of the
embedding of Python's sorted(). -/
def insertSorted (a : String) : List String → List String
  | [] => [a]
  | b :: rest => if a ≤ b then a :: b :: rest else b :: insertSorted a rest

/-- Embedding of sorted(guest.get('allergens', [])) from source line 135. -/
def sortAllergens (l : List String) : List String := l.foldr insertSorted []

/-- The guest signature tuple of source lines 129-136: the four flags plus
the sorted allergen list. -/
abbrev Sig := Bool × Bool × Bool × Bool × List String

/-- get_guest_signature of source lines 129-136. -/
def signature (g : Guest) : Sig :=
  (g.is_vegan, g.is_vegetarian, g.is_gluten_free, g.is_dairy_free, sortAllergens g.allergens)

/-- The grouping loop of source lines 139-151: the first unprocessed guest
becomes the representative of its signature class, the class size counts
it together with every later unprocessed guest of equal signature, and all
of them are marked processed (here: removed from further consideration). -/
def groupClasses : List Guest → List (Guest × Nat)
  | [] => []
  | g :: rest =>
    (g, 1 + (rest.filter (fun h => decide (signature h = signature g))).length) ::
      groupClasses (rest.filter (fun h => decide (¬ signature h = signature g)))
termination_by l => l.length
decreasing_by
  simp only [List.length_cons]
  exact Nat.lt_succ_of_le (List.length_filter_le _ _)

/-- The residual dietary restrictions of a class representative (source
lines 154-163): each set flag whose name is not already universal, in the
fixed flag order. -/
def residualDietary (univDietary : List String) (g : Guest) : List String :=
  (if g.is_vegan = true ∧ "is_vegan" ∉ univDietary then ["is_vegan"] else []) ++
  (if g.is_vegetarian = true ∧ "is_vegetarian" ∉ univDietary then ["is_vegetarian"] else []) ++
  (if g.is_gluten_free = true ∧ "is_gluten_free" ∉ univDietary then ["is_gluten_free"] else []) ++
  (if g.is_dairy_free = true ∧ "is_dairy_free" ∉ univDietary then ["is_dairy_free"] else [])

/-- The residual allergens of a class representative (source line 165):
the representative's allergens not already universal, in original order. -/
def residualAllergens (univAllergens : List String) (g : Guest) : List String :=
  g.allergens.filter (fun a => decide (a ∉ univAllergens))

/-- The per-class emission decision of source lines 154-173: a class emits
one record carrying its residual and its size iff the residual is
non-empty. -/
def classAlternative (univDietary univAllergens : List String)
    (c : Guest × Nat) : Option AlternativeRequirement :=
  let dr := residualDietary univDietary c.1
  let al := residualAllergens univAllergens c.1
  if dr = [] ∧ al = [] then none else some ⟨dr, al, c.2⟩

/-- The alternatives loop of source lines 139-173: one record per class
whose residual is non-empty, carrying the residual and the class size. -/
def alternativesNeeded (univDietary univAllergens : List String)
    (gl : List Guest) : List AlternativeRequirement :=
  (groupClasses gl).filterMap (classAlternative univDietary univAllergens)

/-- dietary_strategy_analyzer of src/catering_server.py lines 53-181. -/
def dietary_strategy_analyzer (gl : List Guest) : DietaryAnalysisOutput :=
  { total_guests := gl.length
    universal_requirement := ⟨universalDietary gl, universalAllergens gl⟩
    alternatives_needed := alternativesNeeded (universalDietary gl) (universalAllergens gl) gl }

/-- Spec-side threshold, following the specification's wording: 1 for
N ≤ 3 and the ceiling of 0.3 * N otherwise, with exact rational
arithmetic. -/
def specThreshold (n : Nat) : Nat :=
  if n ≤ 3 then 1 else Nat.ceil ((3 * n : ℚ) / 10)

/-- Spec-side grouping: scan the guests in order keeping a set of already
seen signatures; each guest whose signature is new opens a class, paired
with the total number of guests sharing that signature. This makes the
first-occurrence class order and the class sizes explicit. -/
def specClassesSeen (seen : List Sig) : List Guest → List (Guest × Nat)
  | [] => []
  | g :: rest =>
    if signature g ∈ seen then specClassesSeen seen rest
    else
      (g, 1 + rest.countP (fun h => decide (signature h = signature g))) ::
        specClassesSeen (signature g :: seen) rest

/-- Spec-side flag names of a class signature: the names of the flags set
in the signature. -/
def sigFlagNames (g : Guest) : List String :=
  (if g.is_vegan = true then ["is_vegan"] else []) ++
  (if g.is_vegetarian = true then ["is_vegetarian"] else []) ++
  (if g.is_gluten_free = true then ["is_gluten_free"] else []) ++
  (if g.is_dairy_free = true then ["is_dairy_free"] else [])

/-- Spec-side residual non-emptiness of a class: some flag of the class
signature is not universal, or some allergen of the class signature is not
universal. -/
def residualNonempty (univDietary univAllergens : List String) (g : Guest) : Prop :=
  (∃ s ∈ sigFlagNames g, s ∉ univDietary) ∨
    (∃ a ∈ sortAllergens g.allergens, a ∉ univAllergens)

instance (univDietary univAllergens : List String) (g : Guest) :
    Decidable (residualNonempty univDietary univAllergens g) := by
  unfold residualNonempty
  infer_instance

/-- Occurrence count of an allergen string across all guests, counting
repetitions, exactly as the tally loop does. -/
def allergenOccCount (gl : List Guest) (a : String) : Nat :=
  (gl.map (fun g => g.allergens.count a)).sum

/-! ### Helper lemmas about the allergen tally -/

lemma mem_ite_singleton {s x : String} {c : Prop} [Decidable c] :
    s ∈ (if c then [x] else []) ↔ c ∧ s = x := by
  split <;> simp_all

lemma getCount_bump (m : List (String × Nat)) (x a : String) :
    getCount (bumpAllergen m x) a = getCount m a + if x = a then 1 else 0 := by
  induction m with
  | nil => simp [bumpAllergen, getCount]
  | cons p rest ih =>
    obtain ⟨k, v⟩ := p
    by_cases hk : k = x
    · subst hk
      simp only [bumpAllergen, if_pos rfl, getCount]
      by_cases ha : k = a
      · subst ha; simp
      · simp [ha, getCount]
    · simp only [bumpAllergen, if_neg hk, getCount]
      by_cases ha : k = a
      · have hxa : ¬ x = a := fun h => hk (ha.trans h.symm)
        simp [ha, hxa]
      · simp [ha, ih]

lemma getCount_foldl (as : List String) (m : List (String × Nat)) (a : String) :
    getCount (as.foldl bumpAllergen m) a = getCount m a + as.count a := by
  induction as generalizing m with
  | nil => simp
  | cons x rest ih =>
    simp only [List.foldl_cons, ih, getCount_bump, List.count_cons]
    by_cases hxa : x = a
    · simp [hxa]; omega
    · simp [hxa]

lemma getCount_tally_aux (gl : List Guest) (m : List (String × Nat)) (a : String) :
    getCount (gl.foldl (fun acc g => g.allergens.foldl bumpAllergen acc) m) a =
      getCount m a + allergenOccCount gl a := by
  induction gl generalizing m with
  | nil => simp [allergenOccCount]
  | cons g rest ih =>
    simp only [List.foldl_cons, ih, getCount_foldl, allergenOccCount, List.map_cons,
      List.sum_cons]
    omega

lemma getCount_tally (gl : List Guest) (a : String) :
    getCount (tallyAllergens gl) a = allergenOccCount gl a := by
  simpa [getCount] using getCount_tally_aux gl [] a

lemma keys_bump (m : List (String × Nat)) (x : String) :
    (bumpAllergen m x).map Prod.fst =
      if x ∈ m.map Prod.fst then m.map Prod.fst else m.map Prod.fst ++ [x] := by
  induction m with
  | nil => simp [bumpAllergen]
  | cons p rest ih =>
    obtain ⟨k, v⟩ := p
    by_cases hk : k = x
    · subst hk
      simp [bumpAllergen]
    · simp only [bumpAllergen, if_neg hk, List.map_cons, List.mem_cons]
      have hxk : ¬ x = k := fun h => hk h.symm
      by_cases hx : x ∈ rest.map Prod.fst <;> simp [hx, hxk, ih]

lemma nodup_keys_bump (m : List (String × Nat)) (x : String)
    (h : (m.map Prod.fst).Nodup) : ((bumpAllergen m x).map Prod.fst).Nodup := by
  rw [keys_bump]
  by_cases hx : x ∈ m.map Prod.fst
  · simpa [hx]
  · simp only [hx, if_false]
    simpa using List.Nodup.append h (List.nodup_singleton x) (by simpa using hx)

lemma nodup_keys_foldl (as : List String) (m : List (String × Nat))
    (h : (m.map Prod.fst).Nodup) : ((as.foldl bumpAllergen m).map Prod.fst).Nodup := by
  induction as generalizing m with
  | nil => simpa
  | cons x rest ih => exact ih _ (nodup_keys_bump m x h)

lemma tally_keys_nodup (gl : List Guest) : ((tallyAllergens gl).map Prod.fst).Nodup := by
  have haux : ∀ m : List (String × Nat), (m.map Prod.fst).Nodup →
      ((gl.foldl (fun acc g => g.allergens.foldl bumpAllergen acc) m).map Prod.fst).Nodup := by
    induction gl with
    | nil => intro m hm; simpa
    | cons g rest ih =>
      intro m hm
      exact ih _ (nodup_keys_foldl g.allergens m hm)
  simpa [tallyAllergens] using haux [] (by simp)

lemma exists_mem_of_getCount_pos (m : List (String × Nat)) (a : String)
    (h : 0 < getCount m a) : ∃ p ∈ m, p.1 = a := by
  induction m with
  | nil => simp [getCount] at h
  | cons p rest ih =>
    obtain ⟨k, v⟩ := p
    by_cases hk : k = a
    · exact ⟨(k, v), by simp, hk⟩
    · simp only [getCount, if_neg hk] at h
      obtain ⟨q, hq, hqa⟩ := ih h
      exact ⟨q, by simp [hq], hqa⟩

lemma getCount_of_mem_nodup (m : List (String × Nat)) (p : String × Nat)
    (hnd : (m.map Prod.fst).Nodup) (hp : p ∈ m) : getCount m p.1 = p.2 := by
  induction m with
  | nil => simp at hp
  | cons q rest ih =>
    obtain ⟨k, v⟩ := q
    simp only [List.map_cons, List.nodup_cons] at hnd
    rcases List.mem_cons.mp hp with h | h
    · subst h
      simp [getCount]
    · have hne : ¬ k = p.1 := by
        intro hk
        exact hnd.1 (hk ▸ (List.mem_map.mpr ⟨p, h, rfl⟩))
      simp only [getCount, if_neg hne]
      exact ih hnd.2 h

/-! ### Threshold lemmas -/

lemma thresholdOf_pos (n : ℕ) : 1 ≤ thresholdOf n := by
  unfold thresholdOf
  split <;> omega

lemma ceil_three_tenths (n : ℕ) (hn : 3 < n) :
    Nat.ceil ((3 * (n : ℚ)) / 10) = (3 * n + 9) / 10 := by
  have h10 : (0 : ℚ) < 10 := by norm_num
  rw [Nat.ceil_eq_iff (by omega)]
  refine ⟨?_, ?_⟩
  · rw [lt_div_iff₀ h10]
    exact_mod_cast (by omega : ((3 * n + 9) / 10 - 1) * 10 < 3 * n)
  · rw [div_le_iff₀ h10]
    exact_mod_cast (by omega : 3 * n ≤ ((3 * n + 9) / 10) * 10)

lemma specThreshold_eq (n : ℕ) : specThreshold n = thresholdOf n := by
  unfold specThreshold thresholdOf
  rcases le_or_lt n 3 with h | h
  · rw [if_pos h, if_neg (by omega)]
  · rw [if_neg (by omega), if_pos h, ceil_three_tenths n h]

/-! ### Membership in the universal requirement -/

lemma mem_universalDietary (gl : List Guest) (f : DietFlag) :
    flagName f ∈ universalDietary gl ↔ thresholdOf gl.length ≤ countFlag gl f := by
  cases f <;>
    simp [universalDietary, flagName, List.mem_append, mem_ite_singleton]

lemma mem_universalAllergens (gl : List Guest) (a : String) :
    a ∈ universalAllergens gl ↔ thresholdOf gl.length ≤ allergenOccCount gl a := by
  constructor
  · intro h
    rw [universalAllergens, List.mem_map] at h
    obtain ⟨p, hp, rfl⟩ := h
    rw [List.mem_filter] at hp
    obtain ⟨hpm, hple⟩ := hp
    have hc : getCount (tallyAllergens gl) p.1 = p.2 :=
      getCount_of_mem_nodup _ p (tally_keys_nodup gl) hpm
    rw [getCount_tally] at hc
    rw [hc]
    exact of_decide_eq_true hple
  · intro h
    have hpos : 0 < getCount (tallyAllergens gl) a := by
      rw [getCount_tally]
      have := thresholdOf_pos gl.length
      omega
    obtain ⟨p, hpm, hpa⟩ := exists_mem_of_getCount_pos _ a hpos
    have hc : getCount (tallyAllergens gl) p.1 = p.2 :=
      getCount_of_mem_nodup _ p (tally_keys_nodup gl) hpm
    rw [hpa, getCount_tally] at hc
    rw [universalAllergens, List.mem_map]
    refine ⟨p, ?_, hpa⟩
    rw [List.mem_filter]
    exact ⟨hpm, decide_eq_true (by omega)⟩

/-- C1: for every guest list of size N, with threshold 1 when N ≤ 3 and
the ceiling of 0.3 * N when N > 3, a dietary flag name is in the
universal_requirement dietary restrictions iff the number of guests with
that flag set reaches the threshold, and an allergen string is in the
universal_requirement allergens iff its exact, case-sensitive occurrence
count across all guests reaches the threshold. -/
theorem C1_universal_threshold (gl : List Guest) (f : DietFlag) (a : String) :
    (flagName f ∈ (dietary_strategy_analyzer gl).universal_requirement.dietary_restrictions ↔
      specThreshold gl.length ≤ countFlag gl f) ∧
    (a ∈ (dietary_strategy_analyzer gl).universal_requirement.allergens ↔
      specThreshold gl.length ≤ allergenOccCount gl a) := by
  rw [specThreshold_eq]
  exact ⟨mem_universalDietary gl f, mem_universalAllergens gl a⟩

/-! ### Grouping equivalence -/

lemma groupClasses_nil : groupClasses [] = [] := by
  rw [groupClasses]

lemma groupClasses_cons (g : Guest) (rest : List Guest) :
    groupClasses (g :: rest) =
      (g, 1 + (rest.filter (fun h => decide (signature h = signature g))).length) ::
        groupClasses (rest.filter (fun h => decide (¬ signature h = signature g))) := by
  rw [groupClasses]

lemma groupClasses_filter_eq (l : List Guest) : ∀ seen : List Sig,
    groupClasses (l.filter (fun h => decide (signature h ∉ seen))) =
      specClassesSeen seen l := by
  induction l with
  | nil =>
    intro seen
    simp [groupClasses_nil, specClassesSeen]
  | cons g rest ih =>
    intro seen
    by_cases hg : signature g ∈ seen
    · rw [List.filter_cons_of_neg (by simpa using hg), ih seen]
      simp [specClassesSeen, hg]
    · rw [List.filter_cons_of_pos (by simpa using hg), groupClasses_cons]
      simp only [specClassesSeen, if_neg hg]
      congr 1
      · congr 1
        rw [List.filter_filter]
        have heq : ∀ h : Guest,
            (decide (signature h = signature g) && decide (signature h ∉ seen)) =
              decide (signature h = signature g) := by
          intro h
          by_cases h1 : signature h = signature g
          · simp [h1, hg]
          · simp [h1]
        rw [List.filter_congr (fun h _ => heq h), List.countP_eq_length_filter]
      · rw [List.filter_filter]
        have heq : ∀ h : Guest,
            (decide (¬ signature h = signature g) && decide (signature h ∉ seen)) =
              decide (signature h ∉ signature g :: seen) := by
          intro h
          by_cases h1 : signature h = signature g <;> by_cases h2 : signature h ∈ seen <;>
            simp [h1, h2, hg]
        rw [List.filter_congr (fun h _ => heq h), ih]

lemma groupClasses_eq_spec (gl : List Guest) :
    groupClasses gl = specClassesSeen [] gl := by
  have h := groupClasses_filter_eq gl []
  rw [List.filter_eq_self.mpr (by intro a _; simp)] at h
  exact h

/-! ### Facts about the signature classes -/

lemma length_filter_sig_split (g : Guest) (l : List Guest) :
    (l.filter (fun h => decide (signature h = signature g))).length +
      (l.filter (fun h => decide (¬ signature h = signature g))).length = l.length := by
  induction l with
  | nil => simp
  | cons x rest ih =>
    simp only [decide_not] at ih ⊢
    by_cases hx : signature x = signature g <;> simp [hx] <;> omega

lemma sum_groupClasses_sizes (l : List Guest) :
    ((groupClasses l).map Prod.snd).sum = l.length := by
  induction l using groupClasses.induct with
  | case1 => simp [groupClasses_nil]
  | case2 g rest ih =>
    rw [groupClasses_cons]
    simp only [List.map_cons, List.sum_cons, ih, List.length_cons]
    have := length_filter_sig_split g rest
    omega

lemma groupClasses_rep_mem (l : List Guest) : ∀ c ∈ groupClasses l, c.1 ∈ l := by
  induction l using groupClasses.induct with
  | case1 => simp [groupClasses_nil]
  | case2 g rest ih =>
    intro c hc
    rw [groupClasses_cons] at hc
    rcases List.mem_cons.mp hc with h | h
    · subst h
      exact List.mem_cons_self _ _
    · exact List.mem_cons_of_mem _ (List.mem_of_mem_filter (ih c h))

lemma groupClasses_sig_nodup (l : List Guest) :
    ((groupClasses l).map (fun c => signature c.1)).Nodup := by
  induction l using groupClasses.induct with
  | case1 => simp [groupClasses_nil]
  | case2 g rest ih =>
    rw [groupClasses_cons]
    simp only [List.map_cons, List.nodup_cons]
    refine ⟨?_, ih⟩
    intro hmem
    rw [List.mem_map] at hmem
    obtain ⟨c, hc, hsig⟩ := hmem
    have h1 := groupClasses_rep_mem _ c hc
    have h2 : ¬ signature c.1 = signature g := by simpa using List.of_mem_filter h1
    exact h2 hsig

lemma groupClasses_exists (l : List Guest) :
    ∀ g ∈ l, ∃ c ∈ groupClasses l, signature c.1 = signature g := by
  induction l using groupClasses.induct with
  | case1 => simp
  | case2 x rest ih =>
    intro g hg
    rw [groupClasses_cons]
    by_cases hsig : signature g = signature x
    · exact ⟨(x, 1 + (rest.filter (fun h => decide (signature h = signature x))).length),
        List.mem_cons_self _ _, hsig.symm⟩
    · rcases List.mem_cons.mp hg with h | h
      · exact absurd (h ▸ rfl) hsig
      · have hmem : g ∈ rest.filter (fun h => decide (¬ signature h = signature x)) :=
          List.mem_filter.mpr ⟨h, by simpa using hsig⟩
        obtain ⟨c, hc, hcsig⟩ := ih g hmem
        exact ⟨c, List.mem_cons_of_mem _ hc, hcsig⟩

lemma classAlternative_none (univD univA : List String) (c : Guest × Nat)
    (h : residualDietary univD c.1 = [] ∧ residualAllergens univA c.1 = []) :
    classAlternative univD univA c = none := by
  simp [classAlternative, h.1, h.2]

lemma classAlternative_some (univD univA : List String) (c : Guest × Nat)
    (h : ¬ (residualDietary univD c.1 = [] ∧ residualAllergens univA c.1 = [])) :
    classAlternative univD univA c =
      some ⟨residualDietary univD c.1, residualAllergens univA c.1, c.2⟩ := by
  simp only [classAlternative]
  rw [if_neg h]

lemma sum_filterMap_filter (univD univA : List String) (L : List (Guest × Nat)) :
    ((L.filterMap (classAlternative univD univA)).map
        AlternativeRequirement.quantity_needed).sum +
      ((L.filter (fun c => decide (residualDietary univD c.1 = [] ∧
          residualAllergens univA c.1 = []))).map Prod.snd).sum =
    (L.map Prod.snd).sum := by
  induction L with
  | nil => simp
  | cons c rest ih =>
    by_cases hc : residualDietary univD c.1 = [] ∧ residualAllergens univA c.1 = []
    · rw [List.filterMap_cons_none (classAlternative_none _ _ _ hc),
        List.filter_cons_of_pos (by simpa using hc)]
      simp only [List.map_cons, List.sum_cons]
      omega
    · rw [List.filterMap_cons_some (classAlternative_some _ _ _ hc),
        List.filter_cons_of_neg (by simpa using hc)]
      simp only [List.map_cons, List.sum_cons]
      omega

/-- C2: the segmenter partitions the guests into signature classes: every
guest belongs to exactly one class, and the quantities of the emitted
alternative records plus the guests of classes whose residual is empty
add up to the number of guests. -/
theorem C2_partition_invariant (gl : List Guest) :
    (∀ g ∈ gl, ∃! c, c ∈ groupClasses gl ∧ signature c.1 = signature g) ∧
    (((dietary_strategy_analyzer gl).alternatives_needed.map
        AlternativeRequirement.quantity_needed).sum +
      (((groupClasses gl).filter (fun c =>
          decide (residualDietary (universalDietary gl) c.1 = [] ∧
            residualAllergens (universalAllergens gl) c.1 = []))).map Prod.snd).sum =
      gl.length) := by
  constructor
  · intro g hg
    obtain ⟨c, hc, hcs⟩ := groupClasses_exists gl g hg
    refine ⟨c, ⟨hc, hcs⟩, ?_⟩
    rintro c2 ⟨hc2, hcs2⟩
    exact List.inj_on_of_nodup_map (groupClasses_sig_nodup gl) hc2 hc (hcs2.trans hcs.symm)
  · have h1 := sum_filterMap_filter (universalDietary gl) (universalAllergens gl)
      (groupClasses gl)
    have h2 := sum_groupClasses_sizes gl
    simp only [dietary_strategy_analyzer, alternativesNeeded]
    omega

/-! ### Residual membership lemmas -/

lemma mem_insertSorted (a b : String) (l : List String) :
    b ∈ insertSorted a l ↔ b = a ∨ b ∈ l := by
  induction l with
  | nil => simp [insertSorted]
  | cons x rest ih =>
    simp only [insertSorted]
    split
    · simp
    · rw [List.mem_cons, ih, List.mem_cons]
      tauto

lemma mem_sortAllergens (a : String) (l : List String) :
    a ∈ sortAllergens l ↔ a ∈ l := by
  induction l with
  | nil => simp [sortAllergens]
  | cons x rest ih =>
    show a ∈ insertSorted x (sortAllergens rest) ↔ _
    rw [mem_insertSorted, ih, List.mem_cons]

lemma mem_residualDietary (univD : List String) (g : Guest) (s : String) :
    s ∈ residualDietary univD g ↔ s ∈ sigFlagNames g ∧ s ∉ univD := by
  simp only [residualDietary, sigFlagNames, List.mem_append, mem_ite_singleton]
  constructor
  · rintro (((⟨⟨hf, hu⟩, rfl⟩ | ⟨⟨hf, hu⟩, rfl⟩) | ⟨⟨hf, hu⟩, rfl⟩) | ⟨⟨hf, hu⟩, rfl⟩) <;>
      simp [hf, hu]
  · rintro ⟨(((⟨hf, rfl⟩ | ⟨hf, rfl⟩) | ⟨hf, rfl⟩) | ⟨hf, rfl⟩), hu⟩ <;> simp [hf, hu]

lemma mem_residualAllergens (univA : List String) (g : Guest) (s : String) :
    s ∈ residualAllergens univA g ↔ s ∈ sortAllergens g.allergens ∧ s ∉ univA := by
  simp [residualAllergens, List.mem_filter, mem_sortAllergens]

lemma residualNonempty_iff (univD univA : List String) (g : Guest) :
    residualNonempty univD univA g ↔
      ¬ (residualDietary univD g = [] ∧ residualAllergens univA g = []) := by
  unfold residualNonempty
  rw [not_and_or]
  have hd : (∃ s ∈ sigFlagNames g, s ∉ univD) ↔ ¬ residualDietary univD g = [] := by
    constructor
    · rintro ⟨s, h1, h2⟩ hnil
      have hmem := (mem_residualDietary univD g s).mpr ⟨h1, h2⟩
      rw [hnil] at hmem
      simp at hmem
    · intro hne
      obtain ⟨s, hs⟩ := List.exists_mem_of_ne_nil _ hne
      have hmem := (mem_residualDietary univD g s).mp hs
      exact ⟨s, hmem.1, hmem.2⟩
  have ha : (∃ a ∈ sortAllergens g.allergens, a ∉ univA) ↔
      ¬ residualAllergens univA g = [] := by
    constructor
    · rintro ⟨s, h1, h2⟩ hnil
      have hmem := (mem_residualAllergens univA g s).mpr ⟨h1, h2⟩
      rw [hnil] at hmem
      simp at hmem
    · intro hne
      obtain ⟨s, hs⟩ := List.exists_mem_of_ne_nil _ hne
      have hmem := (mem_residualAllergens univA g s).mp hs
      exact ⟨s, hmem.1, hmem.2⟩
  rw [hd, ha]

lemma classAlternative_isSome (univD univA : List String) (c : Guest × Nat) :
    (classAlternative univD univA c).isSome = true ↔
      ¬ (residualDietary univD c.1 = [] ∧ residualAllergens univA c.1 = []) := by
  by_cases hc : residualDietary univD c.1 = [] ∧ residualAllergens univA c.1 = []
  · rw [classAlternative_none _ _ _ hc]
    simp [hc]
  · rw [classAlternative_some _ _ _ hc]
    simp [hc]

lemma forall₂_filterMap_filter {α β : Type} (f : α → Option β) (p : α → Bool)
    (R : β → α → Prop)
    (hiff : ∀ a, (f a).isSome = true ↔ p a = true)
    (hr : ∀ a b, f a = some b → R b a) :
    ∀ L : List α, List.Forall₂ R (L.filterMap f) (L.filter p) := by
  intro L
  induction L with
  | nil => exact List.Forall₂.nil
  | cons a rest ih =>
    cases hfa : f a with
    | none =>
      have hp : ¬ p a = true := by
        intro hpa
        have hsome := (hiff a).mpr hpa
        rw [hfa] at hsome
        simp at hsome
      rw [List.filterMap_cons_none hfa, List.filter_cons_of_neg hp]
      exact ih
    | some b =>
      have hp : p a = true := (hiff a).mp (by simp [hfa])
      rw [List.filterMap_cons_some hfa, List.filter_cons_of_pos hp]
      exact List.Forall₂.cons (hr a b hfa) ih

/-- C3: the analyzer emits exactly one alternative record per signature
class with non-empty residual, in first-occurrence class order; each
record carries exactly the residual flags and allergens of its class and
the class size as quantity_needed, and empty-residual classes emit
nothing. specClassesSeen enumerates the signature classes in
first-occurrence order, each paired with its size. -/
theorem C3_alternative_emission (gl : List Guest) :
    List.Forall₂ (fun (alt : AlternativeRequirement) (cls : Guest × Nat) =>
        alt.quantity_needed = cls.2 ∧
        (∀ s, s ∈ alt.dietary_restrictions ↔
          (s ∈ sigFlagNames cls.1 ∧ s ∉ universalDietary gl)) ∧
        (∀ s, s ∈ alt.allergens ↔
          (s ∈ sortAllergens cls.1.allergens ∧ s ∉ universalAllergens gl)))
      (dietary_strategy_analyzer gl).alternatives_needed
      ((specClassesSeen [] gl).filter (fun cls =>
        decide (residualNonempty (universalDietary gl) (universalAllergens gl) cls.1))) := by
  have hgc : (dietary_strategy_analyzer gl).alternatives_needed =
      (specClassesSeen [] gl).filterMap
        (classAlternative (universalDietary gl) (universalAllergens gl)) := by
    simp only [dietary_strategy_analyzer, alternativesNeeded, groupClasses_eq_spec]
  rw [hgc]
  apply forall₂_filterMap_filter
  · intro c
    rw [classAlternative_isSome, decide_eq_true_iff]
    exact (residualNonempty_iff _ _ c.1).symm
  · intro c alt hsome
    by_cases hc : residualDietary (universalDietary gl) c.1 = [] ∧
        residualAllergens (universalAllergens gl) c.1 = []
    · rw [classAlternative_none _ _ _ hc] at hsome
      cases hsome
    · rw [classAlternative_some _ _ _ hc] at hsome
      injection hsome with h
      rw [← h]
      refine ⟨rfl, ?_, ?_⟩
      · intro s
        exact mem_residualDietary _ _ s
      · intro s
        exact mem_residualAllergens _ _ s

/-! ### Concrete scenario A from the specification -/

/-- Guest 1 of scenario A: gluten-free, allergic to nuts. -/
def scenarioGuest1 : Guest := { is_gluten_free := true, allergens := ["nuts"] }

/-- Guest 2 of scenario A: gluten-free, vegetarian, allergic to nuts. -/
def scenarioGuest2 : Guest :=
  { is_gluten_free := true, is_vegetarian := true, allergens := ["nuts"] }

/-- Guest 3 of scenario A: allergic to chicken. -/
def scenarioGuest3 : Guest := { allergens := ["chicken"] }

/-- The scenario A guest list (also the sample list of src/client.py). -/
def scenarioGuests : List Guest := [scenarioGuest1, scenarioGuest2, scenarioGuest3]

lemma scenarioGuests_eval : dietary_strategy_analyzer scenarioGuests =
    ⟨3, ⟨["is_vegetarian", "is_gluten_free"], ["nuts", "chicken"]⟩, []⟩ := by
  unfold dietary_strategy_analyzer alternativesNeeded
  rw [groupClasses_eq_spec]
  rfl

/-- C4 counterexample: on scenario A the claim's expected output is wrong.
With N = 3 the threshold is 1, so is_vegetarian (count 1) is also
universal; the analyzer does not return dietary restrictions
[is_gluten_free] only, and it returns no alternative record at all
rather than one vegetarian alternative for guest 2. -/
theorem C4_counterexample :
    ¬ ((dietary_strategy_analyzer scenarioGuests).universal_requirement.dietary_restrictions =
        ["is_gluten_free"] ∧
      (dietary_strategy_analyzer scenarioGuests).universal_requirement.allergens =
        ["nuts", "chicken"] ∧
      (dietary_strategy_analyzer scenarioGuests).alternatives_needed =
        [⟨["is_vegetarian"], [], 1⟩]) := by
  rw [scenarioGuests_eval]
  decide

/-- C4 amended: on scenario A, threshold 1 makes every present restriction
universal, so the analyzer returns universal dietary restrictions
[is_vegetarian, is_gluten_free], universal allergens [nuts, chicken], and
an empty alternatives_needed list: every guest's residual is empty. -/
theorem C4_amended_output :
    dietary_strategy_analyzer scenarioGuests =
      ⟨3, ⟨["is_vegetarian", "is_gluten_free"], ["nuts", "chicken"]⟩, []⟩ :=
  scenarioGuests_eval

/-- C2 witness at the scenario A guest list. -/
theorem C2_partition_invariant_witness :
    (∃! c, c ∈ groupClasses scenarioGuests ∧ signature c.1 = signature scenarioGuest1) ∧
    (((dietary_strategy_analyzer scenarioGuests).alternatives_needed.map
        AlternativeRequirement.quantity_needed).sum +
      (((groupClasses scenarioGuests).filter (fun c =>
          decide (residualDietary (universalDietary scenarioGuests) c.1 = [] ∧
            residualAllergens (universalAllergens scenarioGuests) c.1 = []))).map
        Prod.snd).sum = scenarioGuests.length) :=
  ⟨(C2_partition_invariant scenarioGuests).1 scenarioGuest1 (by simp [scenarioGuests]),
    (C2_partition_invariant scenarioGuests).2⟩

/-!
### Part 2: the workflow steps of src/client.py

The language-model agents and MCP tools are opaque capabilities; each step
is embedded as a pure function from the event payload and the capability
result to the emitted event. Python values that can be a dict or a string
are modelled by a small dynamic value type, and Python runtime errors
(KeyError on a missing dict key, TypeError on an unsupported operation)
by an error type.
-/

/-- Python runtime errors relevant to the embedded code paths. -/
inductive PyErr where
  | keyError
  | typeError
deriving DecidableEq

/-- A dynamic value as produced by the structured analysis response:
a string, a number, a list of strings, a list of values, or a dict with
string keys in insertion order. -/
inductive JVal where
  | str (s : String)
  | nat (n : Nat)
  | strList (l : List String)
  | listv (l : List JVal)
  | dict (entries : List (String × JVal))

/-- A requirement record built by diet_analyze (src/client.py lines
107-110 and 114-117): the dict with keys dietary_restrictions and
allergens. -/
structure ReqRecord where
  dietary_restrictions : JVal
  allergens : JVal

/-- The structured analysis response is treated as a dict. -/
abbrev AnalysisDict := List (String × JVal)

/-- Dict subscription d[k]: the first entry with the key, KeyError when
absent. -/
def getItem (d : List (String × JVal)) (k : String) : Except PyErr JVal :=
  match d.find? (fun p => p.1 == k) with
  | some p => .ok p.2
  | none => .error .keyError

/-- Subscripting alt["dietary_restrictions"] and alt["allergens"] on one
entry of alternatives_needed (src/client.py lines 113-117); subscripting
a non-dict value with a string key raises TypeError. -/
def parseAlt (alt : JVal) : Except PyErr ReqRecord :=
  match alt with
  | .dict d =>
    match getItem d "dietary_restrictions" with
    | .error e => .error e
    | .ok dr =>
      match getItem d "allergens" with
      | .error e => .error e
      | .ok al => .ok ⟨dr, al⟩
  | _ => .error .typeError

/-- Reading dietary_restrictions and allergens out of the
universal_requirement value (src/client.py lines 108-109); subscripting a
non-dict raises TypeError. -/
def parseUniversalValue (v : JVal) : Except PyErr (List ReqRecord) :=
  match v with
  | .dict u =>
    match getItem u "dietary_restrictions" with
    | .error e => .error e
    | .ok dr =>
      match getItem u "allergens" with
      | .error e => .error e
      | .ok al => .ok [⟨dr, al⟩]
  | _ => .error .typeError

/-- The universal_requirement branch of src/client.py lines 106-110: if
the key is present, one requirement is appended from its
dietary_restrictions and allergens entries. -/
def parseUniversal (analysis : AnalysisDict) : Except PyErr (List ReqRecord) :=
  match analysis.find? (fun p => p.1 == "universal_requirement") with
  | none => .ok []
  | some p => parseUniversalValue p.2

/-- The alternatives_needed branch of src/client.py lines 112-117: if the
key is present its value is iterated; iterating a list of dicts parses
each entry, iterating any other non-empty container subscripts a non-dict
and raises, and a non-iterable value raises TypeError. -/
def parseAlts (analysis : AnalysisDict) : Except PyErr (List ReqRecord) :=
  match analysis.find? (fun p => p.1 == "alternatives_needed") with
  | none => .ok []
  | some p =>
    match p.2 with
    | .listv alts => alts.mapM parseAlt
    | .strList l => l.mapM (fun _ => (.error .typeError : Except PyErr ReqRecord))
    | .dict d => d.mapM (fun _ => (.error .typeError : Except PyErr ReqRecord))
    | .str s => s.data.mapM (fun _ => (.error .typeError : Except PyErr ReqRecord))
    | .nat _ => .error .typeError

/-- The requirements list built by src/client.py lines 104-117: the
universal requirement (when present) followed by the alternatives. -/
def parseRequirements (analysis : AnalysisDict) : Except PyErr (List ReqRecord) :=
  match parseUniversal analysis with
  | .error e => .error e
  | .ok u =>
    match parseAlts analysis with
    | .error e => .error e
    | .ok alts => .ok (u ++ alts)

/-- The outcome of the diet_analyze step: either a terminating StopEvent
with a diagnostic string, or the requirements count stored in the run
context together with one FindExistingRecipeEvent payload per
requirement. -/
inductive DietOut where
  | StopEvent (result : String)
  | emits (requirements_count : Nat) (events : List ReqRecord)

/-- diet_analyze of src/client.py lines 92-130. The agent response is
None, or carries a structured response that is None or a dict (a falsy
empty dict is caught by the same truthiness test as None). On any parse
error the run stops; on an empty requirements list the run stops;
otherwise the requirements count is stored and one event per requirement
is emitted. -/
def diet_analyze (response : Option (Option AnalysisDict)) : DietOut :=
  match response with
  | none => .StopEvent "No response from diet_analyze_agent"
  | some none => .StopEvent "No structured response from diet_analyze_agent"
  | some (some analysis) =>
    if analysis.isEmpty then .StopEvent "No structured response from diet_analyze_agent"
    else
      match parseRequirements analysis with
      | .error _ => .StopEvent "Failed in diet_analyze"
      | .ok reqs =>
        if reqs.isEmpty then .StopEvent "No requirements generated in diet_analyze"
        else .emits reqs.length reqs

/-- The character list of str(x).lower(): every character lowercased. -/
def lowerChars (s : String) : List Char := s.data.map Char.toLower

/-- The sentinel test of src/client.py lines 138 and 163:
Python's containment test, the string "failed" occurring as a contiguous
substring of the lowercased text. -/
def containsFailed (s : String) : Prop := "failed".data <:+: lowerChars s

instance (s : String) : Decidable (containsFailed s) := by
  unfold containsFailed
  infer_instance

/-- The events find_existing_recipes can emit (src/client.py lines
132-141), with the requirement payload type abstract. -/
inductive FindExistingOut (R : Type) where
  | SearchRecipeEvent (requirement : R)
  | FinalizeEvent (result : String)
deriving DecidableEq

/-- find_existing_recipes of src/client.py lines 132-141: if "failed"
occurs in the lowercased lookup result, a SearchRecipeEvent with the same
requirement; otherwise a FinalizeEvent with the result. -/
def find_existing_recipes {R : Type} (requirement : R) (result : String) :
    FindExistingOut R :=
  if containsFailed result then .SearchRecipeEvent requirement
  else .FinalizeEvent result

/-- A Python value that is either the requirement dict or a string, as
flows through the requirement field of the retry loop events. -/
inductive PyVal where
  | str (s : String)
  | dict (d : ReqRecord)

/-- Python string concatenation via the + operator, which raises TypeError
when the left operand is a dict. -/
def pyAddStr : PyVal → String → Except PyErr String
  | .dict _, _ => .error .typeError
  | .str s, t => .ok (s ++ t)

/-- The events review_search_result can emit (src/client.py lines
151-166). -/
inductive ReviewOut where
  | SearchRecipeEvent (requirement : PyVal)
  | MatchChefEvent (recipes_found : String)

/-- review_search_result of src/client.py lines 151-166: if "failed"
occurs in the lowercased review output, re-emit SearchRecipeEvent with
requirement + "feedback for previous result: " + str(review_result)
(which raises TypeError whenever requirement is a dict); otherwise emit
MatchChefEvent carrying the search result unchanged. -/
def review_search_result (requirement : PyVal) (search_result review_result : String) :
    Except PyErr ReviewOut :=
  if containsFailed review_result then
    match pyAddStr requirement "feedback for previous result: " with
    | .error e => .error e
    | .ok s1 => .ok (.SearchRecipeEvent (.str (s1 ++ review_result)))
  else .ok (.MatchChefEvent search_result)

/-- match_chef of src/client.py lines 168-172: emits a FinalizeEvent whose
result combines the recipes found with the chef-matching capability
output. -/
def match_chef (recipes_found chef_result : String) : String :=
  "recipes: " ++ recipes_found ++ "\n\nchefs: " ++ chef_result

/-- The buffer of Finalize payloads collected so far by
ctx.collect_events for the current run. -/
structure BarrierState where
  collected : List String

/-- finalize of src/client.py lines 174-183: the arriving Finalize payload
joins the buffer; while fewer than requirements_count payloads have been
collected the step returns None (no event). When the count is reached it
formats the collected payloads with the formatting capability, invokes
the filesystem-write capability on the formatted text, and emits one
StopEvent with the formatted text and the write confirmation. -/
def finalize (requirements_count : Nat) (fmtCap : List String → String)
    (writeCap : String → String) (st : BarrierState) (ev : String) :
    BarrierState × Option String :=
  let buf := st.collected ++ [ev]
  if buf.length = requirements_count then
    let result := fmtCap buf
    (⟨[]⟩, some (result ++ "\n" ++ writeCap result))
  else (⟨buf⟩, none)

/-- Driving the finalize barrier over a sequence of arriving Finalize
payloads, returning every StopEvent result emitted along the way. -/
def processFinalizeEvents (requirements_count : Nat) (fmtCap : List String → String)
    (writeCap : String → String) : BarrierState → List String → List String
  | _, [] => []
  | st, ev :: rest =>
    match finalize requirements_count fmtCap writeCap st ev with
    | (st2, out) => out.toList ++ processFinalizeEvents requirements_count fmtCap writeCap st2 rest

/-! ### The finalize barrier -/

lemma processFinalize_short (n : Nat) (f : List String → String) (w : String → String) :
    ∀ (evs : List String) (st : BarrierState),
      st.collected.length + evs.length < n →
      processFinalizeEvents n f w st evs = [] := by
  intro evs
  induction evs with
  | nil => intro st _; rfl
  | cons ev rest ih =>
    intro st h
    have hlen : ¬ (st.collected ++ [ev]).length = n := by
      simp only [List.length_append, List.length_singleton]
      simp only [List.length_cons] at h
      omega
    simp only [processFinalizeEvents, finalize]
    rw [if_neg hlen]
    simp only [Option.toList_none, List.nil_append]
    refine ih ⟨st.collected ++ [ev]⟩ ?_
    simp only [List.length_append, List.length_singleton]
    simp only [List.length_cons] at h
    omega

lemma processFinalize_exact (n : Nat) (f : List String → String) (w : String → String) :
    ∀ (evs : List String) (st : BarrierState), evs ≠ [] →
      st.collected.length + evs.length = n →
      processFinalizeEvents n f w st evs =
        [f (st.collected ++ evs) ++ "\n" ++ w (f (st.collected ++ evs))] := by
  intro evs
  induction evs with
  | nil => intro st h _; exact absurd rfl h
  | cons ev rest ih =>
    intro st _ hlen
    by_cases hr : rest = []
    · subst hr
      have hbuf : (st.collected ++ [ev]).length = n := by
        simp only [List.length_append, List.length_singleton]
        simp only [List.length_cons, List.length_nil] at hlen
        omega
      simp only [processFinalizeEvents, finalize]
      rw [if_pos hbuf]
      simp
    · have hrpos : 0 < rest.length := List.length_pos.mpr hr
      have hbufne : ¬ (st.collected ++ [ev]).length = n := by
        simp only [List.length_append, List.length_singleton]
        simp only [List.length_cons] at hlen
        omega
      simp only [processFinalizeEvents, finalize]
      rw [if_neg hbufne]
      simp only [Option.toList_none, List.nil_append]
      rw [ih ⟨st.collected ++ [ev]⟩ hr (by
        simp only [List.length_append, List.length_singleton]
        simp only [List.length_cons] at hlen
        omega)]
      simp

/-- C5: while fewer Finalize payloads have arrived than
requirements_count, the barrier emits no StopEvent; when the count is
reached it emits exactly one StopEvent whose result is built by the
formatting capability from all collected payloads together with the
filesystem-write capability confirmation, and over the whole run of
requirements_count Finalize events the barrier fires exactly once. -/
theorem C5_finalize_barrier (n : Nat) (fmtCap : List String → String)
    (writeCap : String → String) (evs : List String)
    (hn : 0 < n) (hlen : evs.length = n) :
    (∀ k, k < n → processFinalizeEvents n fmtCap writeCap ⟨[]⟩ (evs.take k) = []) ∧
    processFinalizeEvents n fmtCap writeCap ⟨[]⟩ evs =
      [fmtCap evs ++ "\n" ++ writeCap (fmtCap evs)] := by
  constructor
  · intro k hk
    apply processFinalize_short
    simp only [List.length_take, List.length_nil, hlen]
    omega
  · have hne : evs ≠ [] := by
      intro h0
      rw [h0] at hlen
      simp only [List.length_nil] at hlen
      omega
    have h := processFinalize_exact n fmtCap writeCap evs ⟨[]⟩ hne (by simpa using hlen)
    simpa using h

/-- Concrete formatting capability for the barrier witness. -/
def demoFormat (l : List String) : String := String.intercalate "; " l

/-- Concrete filesystem-write capability for the barrier witness. -/
def demoWriteConfirm (_ : String) : String := "saved"

/-- C5 witness: requirements_count 3, no StopEvent after two Finalize
events, exactly one StopEvent after the third. -/
theorem C5_finalize_barrier_witness :
    processFinalizeEvents 3 demoFormat demoWriteConfirm ⟨[]⟩ (["r1", "r2", "r3"].take 2) = [] ∧
    processFinalizeEvents 3 demoFormat demoWriteConfirm ⟨[]⟩ ["r1", "r2", "r3"] =
      [demoFormat ["r1", "r2", "r3"] ++ "\n" ++
        demoWriteConfirm (demoFormat ["r1", "r2", "r3"])] :=
  ⟨(C5_finalize_barrier 3 demoFormat demoWriteConfirm ["r1", "r2", "r3"] (by decide) rfl).1 2
      (by decide),
    (C5_finalize_barrier 3 demoFormat demoWriteConfirm ["r1", "r2", "r3"] (by decide) rfl).2⟩

/-- C8: find_existing_recipes emits SearchRecipeEvent carrying the
identical, unmodified requirement iff the lookup result contains the
failure sentinel "failed" case-insensitively, and otherwise emits
FinalizeEvent carrying the found result. -/
theorem C8_find_existing_sentinel {R : Type} (requirement : R) (result : String) :
    (find_existing_recipes requirement result = .SearchRecipeEvent requirement ↔
      containsFailed result) ∧
    (find_existing_recipes requirement result = .FinalizeEvent result ↔
      ¬ containsFailed result) := by
  by_cases h : containsFailed result <;> simp [find_existing_recipes, h]

/-- C9: the review step treats the output as a rejection, never reaching
MatchChefEvent, iff the substring "failed" occurs case-insensitively
anywhere in the review output (so an acceptance whose justification
contains the word "failed" is treated as a rejection); on acceptance it
emits MatchChefEvent carrying the original search result unchanged. -/
theorem C9_review_rejection (requirement : PyVal) (search_result review_result : String) :
    (containsFailed review_result →
      ∀ s, review_search_result requirement search_result review_result ≠
        .ok (.MatchChefEvent s)) ∧
    (¬ containsFailed review_result →
      review_search_result requirement search_result review_result =
        .ok (.MatchChefEvent search_result)) := by
  constructor
  · intro h s
    unfold review_search_result
    rw [if_pos h]
    cases requirement <;> simp [pyAddStr]
  · intro h
    unfold review_search_result
    rw [if_neg h]

/-- C9 witness: an acceptance whose justification contains "failed" is
rejected; a clean acceptance forwards the search result to MatchChef. -/
theorem C9_review_rejection_witness :
    (∀ s, review_search_result (.str "req") "found recipes" "Success: no check failed" ≠
      .ok (.MatchChefEvent s)) ∧
    review_search_result (.str "req") "found recipes" "Success" =
      .ok (.MatchChefEvent "found recipes") :=
  ⟨(C9_review_rejection (.str "req") "found recipes" "Success: no check failed").1 (by decide),
    (C9_review_rejection (.str "req") "found recipes" "Success").2 (by decide)⟩

/-- C6 (code bug evidence): on a rejection the review step evaluates
requirement + "feedback for previous result: " + str(review_result), and
the requirement arriving at the review step is always the requirement
dict, so the step raises TypeError and the run aborts instead of
re-emitting SearchRecipeEvent with the feedback appended. -/
theorem C6_rejection_type_error :
    review_search_result (.dict ⟨.strList ["is_vegetarian"], .strList []⟩)
      "candidate recipes" "Failed: the recipe names are generic" =
      .error .typeError := by
  unfold review_search_result
  rw [if_pos (by decide)]
  rfl

/-! ### diet_analyze theorems -/

lemma parseUniversalValue_ok_length (v : JVal) (u : List ReqRecord)
    (h : parseUniversalValue v = .ok u) : u.length = 1 := by
  cases v with
  | dict udict =>
    simp only [parseUniversalValue] at h
    split at h
    · cases h
    · split at h
      · cases h
      · injection h with h2
        rw [← h2]
        rfl
  | str s => simp [parseUniversalValue] at h
  | nat n => simp [parseUniversalValue] at h
  | strList l => simp [parseUniversalValue] at h
  | listv l => simp [parseUniversalValue] at h

lemma parseUniversal_length (d : AnalysisDict) (u : List ReqRecord)
    (hu : parseUniversal d = .ok u) :
    u.length = if (d.find? (fun p => p.1 == "universal_requirement")).isSome then 1 else 0 := by
  unfold parseUniversal at hu
  cases hf : d.find? (fun p => p.1 == "universal_requirement") with
  | none =>
    rw [hf] at hu
    have hu2 : Except.ok ([] : List ReqRecord) = Except.ok u := hu
    injection hu2 with h
    rw [← h]
    rfl
  | some p =>
    rw [hf] at hu
    have hu2 : parseUniversalValue p.2 = .ok u := hu
    simp only [Option.isSome_some, if_true]
    exact parseUniversalValue_ok_length p.2 u hu2

/-- C7: the diet_analyze step stops the run with a failure StopEvent and
emits nothing iff the analysis capability returned no response, no (or a
falsy empty) structured response, a structure whose parsing raises
(expected keys absent or values of the wrong shape), or an empty
requirements list; otherwise it stores the total requirement count (the
universal requirement, when its key is present, plus one per alternative)
and emits exactly one FindExistingRecipeEvent payload per requirement. -/
theorem C7_diet_analyze (response : Option (Option AnalysisDict)) :
    ((∃ msg, diet_analyze response = .StopEvent msg) ↔
      (response = none ∨ response = some none ∨
        ∃ d, response = some (some d) ∧
          (d = [] ∨ (∃ e, parseRequirements d = .error e) ∨
            parseRequirements d = .ok []))) ∧
    (∀ d u alts, response = some (some d) → ¬ d = [] →
      parseUniversal d = .ok u → parseAlts d = .ok alts → ¬ u ++ alts = [] →
      diet_analyze response = .emits (u.length + alts.length) (u ++ alts) ∧
      u.length =
        (if (d.find? (fun p => p.1 == "universal_requirement")).isSome then 1 else 0)) := by
  constructor
  · match response with
    | none => simp [diet_analyze]
    | some none => simp [diet_analyze]
    | some (some d) =>
      by_cases hd : d.isEmpty
      · have hde : d = [] := List.isEmpty_iff.mp hd
        simp [diet_analyze, hd, hde]
      · have hde : ¬ d = [] := by
          intro h
          rw [h] at hd
          exact hd rfl
        match hp : parseRequirements d with
        | .error e => simp [diet_analyze, hd, hp, hde]
        | .ok [] => simp [diet_analyze, hd, hp, hde]
        | .ok (r :: rs) => simp [diet_analyze, hd, hp, hde]
  · intro d u alts hresp hdne hu ha hne
    subst hresp
    have hp : parseRequirements d = .ok (u ++ alts) := by
      unfold parseRequirements
      rw [hu, ha]
    have hd : d.isEmpty = false := List.isEmpty_eq_false.mpr hdne
    have hre : (u ++ alts).isEmpty = false := List.isEmpty_eq_false.mpr hne
    refine ⟨?_, parseUniversal_length d u hu⟩
    simp [diet_analyze, hd, hp, hre]

/-- Structured analysis response used as the C7 witness: a universal
requirement and no alternatives. -/
def demoAnalysis : AnalysisDict :=
  [("universal_requirement", .dict [("dietary_restrictions", .strList ["is_vegan"]),
      ("allergens", .strList [])]),
    ("alternatives_needed", .listv [])]

/-- C7 witness: on the demo analysis the step stores count 1 and emits the
single universal requirement. -/
theorem C7_diet_analyze_witness :
    diet_analyze (some (some demoAnalysis)) =
      .emits (1 + 0) ([⟨.strList ["is_vegan"], .strList []⟩] ++ []) :=
  ((C7_diet_analyze (some (some demoAnalysis))).2 demoAnalysis
      [⟨.strList ["is_vegan"], .strList []⟩] [] rfl (by simp [demoAnalysis]) rfl rfl
      (by simp)).1

/-! ### The analyzer output as a structured response (C10) -/

/-- One alternatives_needed entry as the dict built at src/catering_server.py
lines 169-173, in the source's key order. -/
def alternativeToJVal (a : AlternativeRequirement) : JVal :=
  .dict [("dietary_restrictions", .strList a.dietary_restrictions),
    ("allergens", .strList a.allergens),
    ("quantity_needed", .nat a.quantity_needed)]

/-- The result dict of dietary_strategy_analyzer (src/catering_server.py
lines 175-179), in the source's key order: the universal_requirement key
is always present, even when both of its lists are empty. -/
def analyzerToDict (r : DietaryAnalysisOutput) : AnalysisDict :=
  [("total_guests", .nat r.total_guests),
    ("universal_requirement", .dict
      [("dietary_restrictions", .strList r.universal_requirement.dietary_restrictions),
        ("allergens", .strList r.universal_requirement.allergens)]),
    ("alternatives_needed", .listv (r.alternatives_needed.map alternativeToJVal))]

lemma parseUniversal_analyzerToDict (r : DietaryAnalysisOutput) :
    parseUniversal (analyzerToDict r) =
      .ok [⟨.strList r.universal_requirement.dietary_restrictions,
        .strList r.universal_requirement.allergens⟩] := rfl

lemma parseAlts_analyzerToDict (r : DietaryAnalysisOutput) :
    parseAlts (analyzerToDict r) =
      (r.alternatives_needed.map alternativeToJVal).mapM parseAlt := rfl

lemma mapM_parseAlt_map (alts : List AlternativeRequirement) :
    (alts.map alternativeToJVal).mapM parseAlt =
      .ok (alts.map (fun a =>
        (⟨.strList a.dietary_restrictions, .strList a.allergens⟩ : ReqRecord))) := by
  induction alts with
  | nil => rfl
  | cons a rest ih =>
    rw [List.map_cons, List.mapM_cons,
      show parseAlt (alternativeToJVal a) =
        Except.ok (⟨.strList a.dietary_restrictions, .strList a.allergens⟩ : ReqRecord)
        from rfl, ih]
    rfl

/-- C10: whenever the analysis output carries the universal_requirement
key, which the analyzer's result dict always does even for guest lists
imposing no restrictions, the universal requirement counts as one branch
even when both of its lists are empty: the stored requirements count is
1 plus the number of alternatives_needed entries, and the first emitted
FindExistingRecipeEvent carries the (possibly empty-constraint) universal
requirement. -/
theorem C10_universal_always_branch (gl : List Guest) :
    diet_analyze (some (some (analyzerToDict (dietary_strategy_analyzer gl)))) =
      .emits (1 + (dietary_strategy_analyzer gl).alternatives_needed.length)
        (⟨.strList (dietary_strategy_analyzer gl).universal_requirement.dietary_restrictions,
            .strList (dietary_strategy_analyzer gl).universal_requirement.allergens⟩ ::
          (dietary_strategy_analyzer gl).alternatives_needed.map (fun a =>
            ⟨.strList a.dietary_restrictions, .strList a.allergens⟩)) := by
  have ha : parseAlts (analyzerToDict (dietary_strategy_analyzer gl)) =
      .ok ((dietary_strategy_analyzer gl).alternatives_needed.map (fun a =>
        (⟨.strList a.dietary_restrictions, .strList a.allergens⟩ : ReqRecord))) := by
    rw [parseAlts_analyzerToDict, mapM_parseAlt_map]
  have hp : parseRequirements (analyzerToDict (dietary_strategy_analyzer gl)) =
      .ok (⟨.strList (dietary_strategy_analyzer gl).universal_requirement.dietary_restrictions,
          .strList (dietary_strategy_analyzer gl).universal_requirement.allergens⟩ ::
        (dietary_strategy_analyzer gl).alternatives_needed.map (fun a =>
          ⟨.strList a.dietary_restrictions, .strList a.allergens⟩)) := by
    unfold parseRequirements
    rw [parseUniversal_analyzerToDict, ha]
    rfl
  have hd : (analyzerToDict (dietary_strategy_analyzer gl)).isEmpty = false := rfl
  simp [diet_analyze, hd, hp, Nat.add_comm]

/-- C3 witness: the emission shape at the scenario A guest list. -/
theorem C3_alternative_emission_witness :
    List.Forall₂ (fun (alt : AlternativeRequirement) (cls : Guest × Nat) =>
        alt.quantity_needed = cls.2 ∧
        (∀ s, s ∈ alt.dietary_restrictions ↔
          (s ∈ sigFlagNames cls.1 ∧ s ∉ universalDietary scenarioGuests)) ∧
        (∀ s, s ∈ alt.allergens ↔
          (s ∈ sortAllergens cls.1.allergens ∧ s ∉ universalAllergens scenarioGuests)))
      (dietary_strategy_analyzer scenarioGuests).alternatives_needed
      ((specClassesSeen [] scenarioGuests).filter (fun cls =>
        decide (residualNonempty (universalDietary scenarioGuests)
          (universalAllergens scenarioGuests) cls.1))) :=
  C3_alternative_emission scenarioGuests
